import Mathlib

/-!
Verification of the request-authorization middleware in
`actix-casbin-auth` (`src/middleware.rs`).

The middleware (`CasbinMiddleware::call`) is shallowly embedded as a pure
function that, given an oracle for the enforcer's `enforce_mut` operation
and the wrapped downstream service, returns the final enforcer state, the
middleware's result, and an explicit trace of the observable events of one
request (lock acquisition/release, stderr writes, the enforce invocation,
downstream invocation, and response synthesis).  Temporal claims are stated
over the trace; functional claims over the result.
-/

namespace ActixCasbin

/-- `CasbinVals`: the identity record attached upstream
(`pub struct CasbinVals { subject: String, domain: Option<String> }`). -/
structure CasbinVals where
  subject : String
  domain : Option String
  deriving DecidableEq, Repr

/-- The part of an actix `ServiceRequest` the middleware reads: the URL
path (`req.path()`), the method name (`req.method().as_str()`), and the
type-keyed extension slot for `CasbinVals`
(`req.extensions().get::<CasbinVals>()`). -/
structure ServiceRequest where
  path : String
  method : String
  vals : Option CasbinVals
  deriving DecidableEq, Repr

/-- actix `EitherBody<B>`: `left` carries a downstream body through
unchanged (`map_into_left_body`), `right` is a synthesized empty
short-circuit body (`HttpResponse::...().finish().map_into_right_body()`). -/
inductive EitherBody (B : Type) where
  | left (b : B)
  | right
  deriving DecidableEq, Repr

/-- The middleware's response: status code plus two-branch body. -/
structure MwResponse (B : Type) where
  status : Nat
  body : EitherBody B
  deriving DecidableEq, Repr

/-- A downstream `ServiceResponse<B>`: status code and body. -/
structure DownResponse (B : Type) where
  status : Nat
  body : B
  deriving DecidableEq, Repr

/-- Observable events of one `call`, in program order:
writer-lock acquisition (`cloned_enforcer.write().await`), the stderr
query echo (`eprintln!("{subject:?}{domain:?}{path:?}{action:?}")`), the
`enforce_mut` invocation with its query, the stderr error echo
(`eprintln!("140 {err:?}")` / `eprintln!("161 {err:?}")`, recorded with
its source line number), lock release (`drop(lock)`), downstream
invocation (`srv.call(req).await`) carrying the request passed, and
short-circuit response synthesis (`req.into_response(...)`). -/
inductive Event (Err : Type) where
  | lockAcquire
  | stderrQuery (q : List String)
  | enforceCall (q : List String)
  | stderrErr (line : Nat) (err : Err)
  | lockRelease
  | downstream (req : ServiceRequest)
  | synthesize (status : Nat)
  deriving DecidableEq, Repr

/-- The outcome of one `call`: event trace, final enforcer state, and the
`Result<ServiceResponse<EitherBody<B>>, Error>` value. -/
structure CallOut (ε Err B : Type) where
  trace : List (Event Err)
  estate : ε
  result : Except Err (MwResponse B)

/-- `CasbinMiddleware::call`, translated line by line from
`src/middleware.rs`.  The shared `CachedEnforcer` behind the lock is the
state `est : ε`; `enforce` is its (mutating) `enforce_mut`; `srv` is the
wrapped downstream service. -/
def call {ε Err B : Type}
    (enforce : List String → ε → Except Err Bool × ε)
    (srv : ServiceRequest → Except Err (DownResponse B))
    (est : ε) (req : ServiceRequest) : CallOut ε Err B :=
  let path := req.path
  let action := req.method
  match req.vals with
  | none =>
      { trace := [Event.synthesize 401], estate := est,
        result := Except.ok ⟨401, EitherBody.right⟩ }
  | some vals =>
      let subject := vals.subject
      if !vals.subject.isEmpty then
        match vals.domain with
        | some domain =>
            let query := [subject, domain, path, action]
            match enforce query est with
            | (Except.ok true, est') =>
                match srv req with
                | Except.ok res =>
                    { trace := [Event.lockAcquire, Event.stderrQuery query,
                        Event.enforceCall query, Event.lockRelease,
                        Event.downstream req],
                      estate := est',
                      result := Except.ok ⟨res.status, EitherBody.left res.body⟩ }
                | Except.error err =>
                    { trace := [Event.lockAcquire, Event.stderrQuery query,
                        Event.enforceCall query, Event.lockRelease,
                        Event.downstream req],
                      estate := est',
                      result := Except.error err }
            | (Except.ok false, est') =>
                { trace := [Event.lockAcquire, Event.stderrQuery query,
                    Event.enforceCall query, Event.lockRelease,
                    Event.synthesize 403],
                  estate := est',
                  result := Except.ok ⟨403, EitherBody.right⟩ }
            | (Except.error err, est') =>
                { trace := [Event.lockAcquire, Event.stderrQuery query,
                    Event.enforceCall query, Event.stderrErr 140 err,
                    Event.lockRelease, Event.synthesize 502],
                  estate := est',
                  result := Except.ok ⟨502, EitherBody.right⟩ }
        | none =>
            let query := [subject, path, action]
            match enforce query est with
            | (Except.ok true, est') =>
                match srv req with
                | Except.ok res =>
                    { trace := [Event.lockAcquire, Event.enforceCall query,
                        Event.lockRelease, Event.downstream req],
                      estate := est',
                      result := Except.ok ⟨res.status, EitherBody.left res.body⟩ }
                | Except.error err =>
                    { trace := [Event.lockAcquire, Event.enforceCall query,
                        Event.lockRelease, Event.downstream req],
                      estate := est',
                      result := Except.error err }
            | (Except.ok false, est') =>
                { trace := [Event.lockAcquire, Event.enforceCall query,
                    Event.lockRelease, Event.synthesize 403],
                  estate := est',
                  result := Except.ok ⟨403, EitherBody.right⟩ }
            | (Except.error err, est') =>
                { trace := [Event.lockAcquire, Event.enforceCall query,
                    Event.stderrErr 161 err, Event.lockRelease,
                    Event.synthesize 502],
                  estate := est',
                  result := Except.ok ⟨502, EitherBody.right⟩ }
      else
        { trace := [Event.synthesize 401], estate := est,
          result := Except.ok ⟨401, EitherBody.right⟩ }

/-- Queries passed to `enforce_mut`, in trace order. -/
def queries {Err : Type} : List (Event Err) → List (List String)
  | [] => []
  | Event.enforceCall q :: rest => q :: queries rest
  | _ :: rest => queries rest

/-- Queries echoed to stderr, in trace order. -/
def stderrQueries {Err : Type} : List (Event Err) → List (List String)
  | [] => []
  | Event.stderrQuery q :: rest => q :: stderrQueries rest
  | _ :: rest => stderrQueries rest

/-- Error diagnostics echoed to stderr, with their source line numbers. -/
def errLines {Err : Type} : List (Event Err) → List (Nat × Err)
  | [] => []
  | Event.stderrErr n e :: rest => (n, e) :: errLines rest
  | _ :: rest => errLines rest

/-- The requests the downstream service was invoked with, in trace order. -/
def downstreamReqs {Err : Type} : List (Event Err) → List ServiceRequest
  | [] => []
  | Event.downstream r :: rest => r :: downstreamReqs rest
  | _ :: rest => downstreamReqs rest

/-- Event kinds, forgetting payloads; used for ordering statements. -/
inductive EvKind where
  | acq
  | query
  | enf
  | errline
  | rel
  | down
  | synth (status : Nat)
  deriving DecidableEq, Repr

/-- The kind of an event. -/
def Event.kind {Err : Type} : Event Err → EvKind
  | .lockAcquire => .acq
  | .stderrQuery _ => .query
  | .enforceCall _ => .enf
  | .stderrErr _ _ => .errline
  | .lockRelease => .rel
  | .downstream _ => .down
  | .synthesize s => .synth s

/-- The kinds of a trace. -/
def kinds {Err : Type} (t : List (Event Err)) : List EvKind :=
  t.map Event.kind

/-- Position of the first occurrence of a kind in a kind list
(`length` when absent). -/
def posOf (k : EvKind) (ks : List EvKind) : Nat :=
  ks.findIdx (fun x => x == k)

/-- The policy query the middleware builds for a validated request:
`[subject, domain, path, action]` when `domain` is present, otherwise
`[subject, path, action]`. -/
def theQuery (req : ServiceRequest) (vals : CasbinVals) : List String :=
  match vals.domain with
  | some d => [vals.subject, d, req.path, req.method]
  | none => [vals.subject, req.path, req.method]

/-- Events preceding the verdict dispatch on the consulted path. -/
def preEvents {Err : Type} (req : ServiceRequest) (vals : CasbinVals) :
    List (Event Err) :=
  match vals.domain with
  | some _ => [Event.lockAcquire, Event.stderrQuery (theQuery req vals),
      Event.enforceCall (theQuery req vals)]
  | none => [Event.lockAcquire, Event.enforceCall (theQuery req vals)]

/-- Source line of the stderr error echo taken in each branch
(140 with domain, 161 without). -/
def errLineNo (vals : CasbinVals) : Nat :=
  match vals.domain with
  | some _ => 140
  | none => 161

/-- Lock discipline of a consulted request's trace: exactly one
acquisition, one release and one enforce invocation; the lock is held
strictly across the enforce invocation (acquired before it, not released
before it); the release precedes any downstream invocation and any 403 or
502 synthesis. -/
def lockOrdering (ks : List EvKind) : Prop :=
  ks.count EvKind.acq = 1 ∧ ks.count EvKind.rel = 1 ∧ ks.count EvKind.enf = 1 ∧
  posOf EvKind.acq ks < posOf EvKind.enf ks ∧
  posOf EvKind.enf ks < posOf EvKind.rel ks ∧
  (EvKind.down ∈ ks → posOf EvKind.rel ks < posOf EvKind.down ks) ∧
  (EvKind.synth 403 ∈ ks → posOf EvKind.rel ks < posOf (EvKind.synth 403) ks) ∧
  (EvKind.synth 502 ∈ ks → posOf EvKind.rel ks < posOf (EvKind.synth 502) ks)

/-- `CasbinService` (the gate): holds `enforcer: Arc<RwLock<CachedEnforcer>>`.
The `Arc` is modelled as an address into a heap of enforcer states:
cloning the `Arc` copies the address; the enforcer object is never cloned. -/
structure CasbinService where
  enforcer : Nat
  deriving DecidableEq, Repr

/-- `CasbinService::get_enforcer`: returns `self.enforcer.clone()`,
i.e. the same address. -/
def CasbinService.get_enforcer (s : CasbinService) : Nat :=
  s.enforcer

/-- `CasbinService::set_enforcer`: builds a gate around an existing
shared handle. -/
def CasbinService.set_enforcer (e : Nat) : CasbinService :=
  ⟨e⟩

/-- The state a `CasbinMiddleware` captures in `new_transform`: the cloned
enforcer handle (the wrapped service is not modelled here). -/
structure CasbinMiddleware where
  enforcer : Nat
  deriving DecidableEq, Repr

/-- `Transform::new_transform`: the produced middleware captures
`self.enforcer.clone()` — again the same address. -/
def CasbinService.new_transform (s : CasbinService) : CasbinMiddleware :=
  ⟨s.enforcer⟩

/-- The `Deref` impl on `CasbinService`: transparent access to the handle. -/
def CasbinService.derefHandle (s : CasbinService) : Nat :=
  s.enforcer

/-! Concrete instances used to evaluate the definitions. -/

/-- Stub enforcer that allows every query. -/
def enfAllow : List String → Unit → Except String Bool × Unit :=
  fun _ u => (Except.ok true, u)

/-- Stub enforcer that denies every query. -/
def enfDeny : List String → Unit → Except String Bool × Unit :=
  fun _ u => (Except.ok false, u)

/-- Stub enforcer that fails on every query. -/
def enfBoom : List String → Unit → Except String Bool × Unit :=
  fun _ u => (Except.error "boom", u)

/-- Stub downstream service returning a fixed 200 response. -/
def srvHello : ServiceRequest → Except String (DownResponse String) :=
  fun _ => Except.ok ⟨200, "hello"⟩

/-- Stub downstream service that fails. -/
def srvFail : ServiceRequest → Except String (DownResponse String) :=
  fun _ => Except.error "downfail"

/-- Identity record with subject `alice` and no domain. -/
def valsAlice : CasbinVals := ⟨"alice", none⟩

/-- Identity record with subject `bob` and domain `tenantA`. -/
def valsBob : CasbinVals := ⟨"bob", some "tenantA"⟩

/-- Request with no identity record attached. -/
def reqNoVals : ServiceRequest := ⟨"/health", "GET", none⟩

/-- Request carrying `valsAlice`. -/
def reqAlice : ServiceRequest := ⟨"/data", "POST", some valsAlice⟩

/-- Request carrying `valsBob`. -/
def reqBob : ServiceRequest := ⟨"/data/1", "DELETE", some valsBob⟩

/-- Request carrying an empty subject. -/
def reqEmptySubj : ServiceRequest := ⟨"/data/1", "GET", some ⟨"", none⟩⟩

/-! Branch characterization lemmas for `call`. -/

/-- Missing `CasbinVals`: 401 synthesized, nothing else happens. -/
theorem call_noVals {ε Err B : Type}
    (enforce : List String → ε → Except Err Bool × ε)
    (srv : ServiceRequest → Except Err (DownResponse B))
    (est : ε) (req : ServiceRequest) (hv : req.vals = none) :
    call enforce srv est req =
      ⟨[Event.synthesize 401], est, Except.ok ⟨401, EitherBody.right⟩⟩ := by
  simp [call, hv]

/-- Empty subject: 401 synthesized, nothing else happens. -/
theorem call_emptySubj {ε Err B : Type}
    (enforce : List String → ε → Except Err Bool × ε)
    (srv : ServiceRequest → Except Err (DownResponse B))
    (est : ε) (req : ServiceRequest) (vals : CasbinVals)
    (hv : req.vals = some vals) (hs : vals.subject = "") :
    call enforce srv est req =
      ⟨[Event.synthesize 401], est, Except.ok ⟨401, EitherBody.right⟩⟩ := by
  simp only [call, hv, hs]
  rw [if_neg]
  decide

/-- Allow verdict: lock acquired, enforce consulted, lock released, then
the downstream service is invoked with the original request and its
response mapped into the left body branch (errors pass through). -/
theorem call_allow {ε Err B : Type}
    (enforce : List String → ε → Except Err Bool × ε)
    (srv : ServiceRequest → Except Err (DownResponse B))
    (est est' : ε) (req : ServiceRequest) (vals : CasbinVals)
    (hv : req.vals = some vals) (hs : vals.subject ≠ "")
    (he : enforce (theQuery req vals) est = (Except.ok true, est')) :
    call enforce srv est req =
      ⟨preEvents req vals ++ [Event.lockRelease, Event.downstream req], est',
       Except.map (fun res => ⟨res.status, EitherBody.left res.body⟩) (srv req)⟩ := by
  have hne : vals.subject.isEmpty = false := by
    rw [Bool.eq_false_iff]
    simpa [String.isEmpty_iff] using hs
  cases hd : vals.domain with
  | some d =>
      simp only [theQuery, hd] at he
      cases hsrv : srv req <;>
        simp [call, hv, hne, hd, he, hsrv, preEvents, theQuery, Except.map]
  | none =>
      simp only [theQuery, hd] at he
      cases hsrv : srv req <;>
        simp [call, hv, hne, hd, he, hsrv, preEvents, theQuery, Except.map]

/-- Deny verdict: lock acquired, enforce consulted, lock released, then a
403 is synthesized; the downstream service is not invoked. -/
theorem call_deny {ε Err B : Type}
    (enforce : List String → ε → Except Err Bool × ε)
    (srv : ServiceRequest → Except Err (DownResponse B))
    (est est' : ε) (req : ServiceRequest) (vals : CasbinVals)
    (hv : req.vals = some vals) (hs : vals.subject ≠ "")
    (he : enforce (theQuery req vals) est = (Except.ok false, est')) :
    call enforce srv est req =
      ⟨preEvents req vals ++ [Event.lockRelease, Event.synthesize 403], est',
       Except.ok ⟨403, EitherBody.right⟩⟩ := by
  have hne : vals.subject.isEmpty = false := by
    rw [Bool.eq_false_iff]
    simpa [String.isEmpty_iff] using hs
  cases hd : vals.domain with
  | some d =>
      simp only [theQuery, hd] at he
      simp [call, hv, hne, hd, he, preEvents, theQuery]
  | none =>
      simp only [theQuery, hd] at he
      simp [call, hv, hne, hd, he, preEvents, theQuery]

/-- Error verdict: lock acquired, enforce consulted, the error echoed to
stderr, lock released, then a 502 is synthesized; the downstream service
is not invoked. -/
theorem call_err {ε Err B : Type}
    (enforce : List String → ε → Except Err Bool × ε)
    (srv : ServiceRequest → Except Err (DownResponse B))
    (est est' : ε) (req : ServiceRequest) (vals : CasbinVals) (err : Err)
    (hv : req.vals = some vals) (hs : vals.subject ≠ "")
    (he : enforce (theQuery req vals) est = (Except.error err, est')) :
    call enforce srv est req =
      ⟨preEvents req vals ++ [Event.stderrErr (errLineNo vals) err,
         Event.lockRelease, Event.synthesize 502], est',
       Except.ok ⟨502, EitherBody.right⟩⟩ := by
  have hne : vals.subject.isEmpty = false := by
    rw [Bool.eq_false_iff]
    simpa [String.isEmpty_iff] using hs
  cases hd : vals.domain with
  | some d =>
      simp only [theQuery, hd] at he
      simp [call, hv, hne, hd, he, preEvents, theQuery, errLineNo]
  | none =>
      simp only [theQuery, hd] at he
      simp [call, hv, hne, hd, he, preEvents, theQuery, errLineNo]

/-- On the consulted path the enforcer receives exactly one query, namely
`theQuery req vals`. -/
theorem queries_call_consulted {ε Err B : Type}
    (enforce : List String → ε → Except Err Bool × ε)
    (srv : ServiceRequest → Except Err (DownResponse B))
    (est : ε) (req : ServiceRequest) (vals : CasbinVals)
    (hv : req.vals = some vals) (hs : vals.subject ≠ "") :
    queries (call enforce srv est req).trace = [theQuery req vals] := by
  rcases he : enforce (theQuery req vals) est with ⟨r, est'⟩
  cases r with
  | ok b =>
      cases b
      · rw [call_deny enforce srv est est' req vals hv hs he]
        cases hd : vals.domain <;> simp [queries, preEvents, hd]
      · rw [call_allow enforce srv est est' req vals hv hs he]
        cases hd : vals.domain <;> simp [queries, preEvents, hd]
  | error err =>
      rw [call_err enforce srv est est' req vals err hv hs he]
      cases hd : vals.domain <;> simp [queries, preEvents, hd]

/-- Complete case analysis of `call`: either the request is rejected with
401 before touching the enforcer, or it is consulted and the three
verdicts give the three characterized outcomes. -/
theorem call_cases {ε Err B : Type}
    (enforce : List String → ε → Except Err Bool × ε)
    (srv : ServiceRequest → Except Err (DownResponse B))
    (est : ε) (req : ServiceRequest) :
    (call enforce srv est req =
        ⟨[Event.synthesize 401], est, Except.ok ⟨401, EitherBody.right⟩⟩ ∧
      (req.vals = none ∨ ∃ vals, req.vals = some vals ∧ vals.subject = "")) ∨
    (∃ vals est', req.vals = some vals ∧ vals.subject ≠ "" ∧
      ((enforce (theQuery req vals) est = (Except.ok true, est') ∧
         call enforce srv est req =
           ⟨preEvents req vals ++ [Event.lockRelease, Event.downstream req], est',
            Except.map (fun res => ⟨res.status, EitherBody.left res.body⟩) (srv req)⟩) ∨
       (enforce (theQuery req vals) est = (Except.ok false, est') ∧
         call enforce srv est req =
           ⟨preEvents req vals ++ [Event.lockRelease, Event.synthesize 403], est',
            Except.ok ⟨403, EitherBody.right⟩⟩) ∨
       (∃ err, enforce (theQuery req vals) est = (Except.error err, est') ∧
         call enforce srv est req =
           ⟨preEvents req vals ++ [Event.stderrErr (errLineNo vals) err,
              Event.lockRelease, Event.synthesize 502], est',
            Except.ok ⟨502, EitherBody.right⟩⟩))) := by
  rcases hv : req.vals with _ | vals
  · exact Or.inl ⟨call_noVals enforce srv est req hv, Or.inl rfl⟩
  · by_cases hs : vals.subject = ""
    · exact Or.inl ⟨call_emptySubj enforce srv est req vals hv hs, Or.inr ⟨vals, rfl, hs⟩⟩
    · rcases he : enforce (theQuery req vals) est with ⟨r, est'⟩
      refine Or.inr ⟨vals, est', rfl, hs, ?_⟩
      cases r with
      | ok b =>
          cases b
          · exact Or.inr (Or.inl ⟨he, call_deny enforce srv est est' req vals hv hs he⟩)
          · exact Or.inl ⟨he, call_allow enforce srv est est' req vals hv hs he⟩
      | error err =>
          exact Or.inr (Or.inr ⟨err, he, call_err enforce srv est est' req vals err hv hs he⟩)

/-! Claim theorems. -/

/-- C1: for every request that reaches the enforce call, the verdict
determines the outcome: on allow the downstream service is invoked exactly
once with the original request and its response is returned with the body
in the left branch; on deny the middleware returns 403 with an empty body
and never invokes downstream; on enforcer error it returns 502 with an
empty body and never invokes downstream. -/
theorem c1_verdict_determines_outcome {ε Err B : Type}
    (enforce : List String → ε → Except Err Bool × ε)
    (srv : ServiceRequest → Except Err (DownResponse B))
    (est : ε) (req : ServiceRequest) (vals : CasbinVals)
    (hv : req.vals = some vals) (hs : vals.subject ≠ "") :
    ((enforce (theQuery req vals) est).1 = Except.ok true →
        downstreamReqs (call enforce srv est req).trace = [req] ∧
        (call enforce srv est req).result =
          Except.map (fun res => ⟨res.status, EitherBody.left res.body⟩) (srv req)) ∧
    ((enforce (theQuery req vals) est).1 = Except.ok false →
        (call enforce srv est req).result = Except.ok ⟨403, EitherBody.right⟩ ∧
        downstreamReqs (call enforce srv est req).trace = []) ∧
    (∀ err, (enforce (theQuery req vals) est).1 = Except.error err →
        (call enforce srv est req).result = Except.ok ⟨502, EitherBody.right⟩ ∧
        downstreamReqs (call enforce srv est req).trace = []) := by
  refine ⟨fun h => ?_, fun h => ?_, fun err h => ?_⟩
  · rw [call_allow enforce srv est (enforce (theQuery req vals) est).2 req vals hv hs
      (by rw [← h])]
    cases hd : vals.domain <;> simp [downstreamReqs, preEvents, hd]
  · rw [call_deny enforce srv est (enforce (theQuery req vals) est).2 req vals hv hs
      (by rw [← h])]
    cases hd : vals.domain <;> simp [downstreamReqs, preEvents, hd]
  · rw [call_err enforce srv est (enforce (theQuery req vals) est).2 req vals err hv hs
      (by rw [← h])]
    cases hd : vals.domain <;> simp [downstreamReqs, preEvents, hd]

/-- Witness for C1: the allow branch at a concrete request, enforcer and
downstream service. -/
theorem c1_witness :
    downstreamReqs (call enfAllow srvHello () reqAlice).trace = [reqAlice] ∧
    (call enfAllow srvHello () reqAlice).result =
      Except.map (fun res => ⟨res.status, EitherBody.left res.body⟩)
        (srvHello reqAlice) :=
  (c1_verdict_determines_outcome enfAllow srvHello () reqAlice valsAlice rfl
    (by decide)).1 rfl

/-- C2: for every request with identity and non-empty subject, the
enforcer receives exactly one query; it is the 4-tuple
`[subject, domain, path, action]` when domain is present and the 3-tuple
`[subject, path, action]` otherwise, with `path` and `action` taken
verbatim from the request's path and method fields, in that order. -/
theorem c2_query_shape {ε Err B : Type}
    (enforce : List String → ε → Except Err Bool × ε)
    (srv : ServiceRequest → Except Err (DownResponse B))
    (est : ε) (req : ServiceRequest) (vals : CasbinVals)
    (hv : req.vals = some vals) (hs : vals.subject ≠ "") :
    queries (call enforce srv est req).trace = [theQuery req vals] ∧
    (∀ d, vals.domain = some d →
        theQuery req vals = [vals.subject, d, req.path, req.method]) ∧
    (vals.domain = none →
        theQuery req vals = [vals.subject, req.path, req.method]) := by
  refine ⟨queries_call_consulted enforce srv est req vals hv hs,
    fun d hd => by simp [theQuery, hd], fun hd => by simp [theQuery, hd]⟩

/-- Witness for C2: the 4-tuple shape at a concrete request. -/
theorem c2_witness :
    queries (call enfDeny srvHello () reqBob).trace = [theQuery reqBob valsBob] :=
  (c2_query_shape enfDeny srvHello () reqBob valsBob rfl (by decide)).1

/-- C3: a request without a `CasbinVals` record gets a 401 with empty
body; the lock is never acquired, the enforcer never queried, and the
downstream service never invoked. -/
theorem c3_missing_vals {ε Err B : Type}
    (enforce : List String → ε → Except Err Bool × ε)
    (srv : ServiceRequest → Except Err (DownResponse B))
    (est : ε) (req : ServiceRequest) (hv : req.vals = none) :
    (call enforce srv est req).result = Except.ok ⟨401, EitherBody.right⟩ ∧
    EvKind.acq ∉ kinds (call enforce srv est req).trace ∧
    queries (call enforce srv est req).trace = [] ∧
    downstreamReqs (call enforce srv est req).trace = [] := by
  rw [call_noVals enforce srv est req hv]
  simp [kinds, queries, downstreamReqs, Event.kind]

/-- Witness for C3 at a concrete request with no identity record. -/
theorem c3_witness :
    (call enfAllow srvHello () reqNoVals).result =
        Except.ok ⟨401, EitherBody.right⟩ ∧
    EvKind.acq ∉ kinds (call enfAllow srvHello () reqNoVals).trace ∧
    queries (call enfAllow srvHello () reqNoVals).trace = [] ∧
    downstreamReqs (call enfAllow srvHello () reqNoVals).trace = [] :=
  c3_missing_vals enfAllow srvHello () reqNoVals rfl

/-- C4: an empty-subject request gets a 401 and the downstream service is
never invoked; consequently every query ever passed to the enforcer has a
non-empty subject as its first element. -/
theorem c4_nonempty_subject_invariant {ε Err B : Type}
    (enforce : List String → ε → Except Err Bool × ε)
    (srv : ServiceRequest → Except Err (DownResponse B))
    (est : ε) :
    (∀ req vals, req.vals = some vals → vals.subject = "" →
        (call enforce srv est req).result = Except.ok ⟨401, EitherBody.right⟩ ∧
        downstreamReqs (call enforce srv est req).trace = []) ∧
    (∀ req q, q ∈ queries (call enforce srv est req).trace →
        ∃ s rest, q = s :: rest ∧ s ≠ "") := by
  constructor
  · intro req vals hv hs
    rw [call_emptySubj enforce srv est req vals hv hs]
    simp [downstreamReqs]
  · intro req q hq
    rcases hv : req.vals with _ | vals
    · rw [call_noVals enforce srv est req hv] at hq
      simp [queries] at hq
    · by_cases hs : vals.subject = ""
      · rw [call_emptySubj enforce srv est req vals hv hs] at hq
        simp [queries] at hq
      · rw [queries_call_consulted enforce srv est req vals hv hs] at hq
        simp at hq
        subst hq
        cases hd : vals.domain with
        | some d =>
            exact ⟨vals.subject, [d, req.path, req.method], by simp [theQuery, hd], hs⟩
        | none =>
            exact ⟨vals.subject, [req.path, req.method], by simp [theQuery, hd], hs⟩

/-- Witness for C4 at a concrete empty-subject request. -/
theorem c4_witness :
    (call enfAllow srvHello () reqEmptySubj).result =
        Except.ok ⟨401, EitherBody.right⟩ ∧
    downstreamReqs (call enfAllow srvHello () reqEmptySubj).trace = [] :=
  (c4_nonempty_subject_invariant enfAllow srvHello ()).1 reqEmptySubj ⟨"", none⟩ rfl rfl

/-- C5: the writer lock is acquired only for requests that pass identity
validation; every terminal trace has as many releases as acquisitions; and
on the consulted path the trace acquires once, holds the lock strictly
across the single enforce invocation, and releases it before any
downstream invocation and before any 403/502 synthesis. -/
theorem c5_lock_discipline {ε Err B : Type}
    (enforce : List String → ε → Except Err Bool × ε)
    (srv : ServiceRequest → Except Err (DownResponse B))
    (est : ε) :
    (∀ req, EvKind.acq ∈ kinds (call enforce srv est req).trace →
        ∃ vals, req.vals = some vals ∧ vals.subject ≠ "") ∧
    (∀ req,
        (kinds (call enforce srv est req).trace).count EvKind.acq =
          (kinds (call enforce srv est req).trace).count EvKind.rel) ∧
    (∀ req vals, req.vals = some vals → vals.subject ≠ "" →
        lockOrdering (kinds (call enforce srv est req).trace)) := by
  refine ⟨?_, ?_, ?_⟩
  · intro req hmem
    rcases call_cases enforce srv est req with ⟨hc, _⟩ | ⟨vals, est', hv, hs, _⟩
    · rw [hc] at hmem
      simp [kinds, Event.kind] at hmem
    · exact ⟨vals, hv, hs⟩
  · intro req
    rcases call_cases enforce srv est req with ⟨hc, _⟩ | ⟨vals, est', hv, hs, hbr⟩
    · rw [hc]
      simp [kinds, Event.kind]
    · rcases hbr with ⟨he, hc⟩ | ⟨he, hc⟩ | ⟨err, he, hc⟩ <;> rw [hc] <;>
        cases hd : vals.domain <;> simp [kinds, Event.kind, preEvents, hd]
  · intro req vals hv hs
    rcases call_cases enforce srv est req with ⟨hc, hbad⟩ | ⟨vals', est', hv', hs', hbr⟩
    · rcases hbad with h | ⟨vals'', hv'', hs''⟩
      · rw [hv] at h
        cases h
      · rw [hv] at hv''
        injection hv'' with h
        subst h
        exact absurd hs'' hs
    · rcases hbr with ⟨he, hc⟩ | ⟨he, hc⟩ | ⟨err, he, hc⟩ <;> rw [hc] <;>
        cases hd : vals'.domain <;>
        simp only [kinds, Event.kind, preEvents, CallOut.mk.injEq, hd, List.map_append,
          List.map_cons, List.map_nil, List.cons_append, List.nil_append] <;>
        simp only [lockOrdering] <;> decide

/-- Witness for C5: lock ordering on a concrete deny trace. -/
theorem c5_witness :
    lockOrdering (kinds (call enfDeny srvHello () reqBob).trace) :=
  (c5_lock_discipline enfDeny srvHello ()).2.2 reqBob valsBob rfl (by decide)

/-- C6 counterexample: at a concrete request whose identity has no domain
the enforcer is consulted with the 3-tuple query, yet no query line is
written to standard error — refuting the claim that a query line is
emitted whenever the enforcer is consulted. -/
theorem c6_counterexample :
    queries (call enfDeny srvHello () reqAlice).trace =
      [["alice", "/data", "POST"]] ∧
    stderrQueries (call enfDeny srvHello () reqAlice).trace = [] := by
  constructor <;> decide

/-- C6 amended: when the enforcer is consulted, a single line containing
the 4-tuple query is echoed to standard error exactly when domain is
present; in the 3-tuple case no query line is emitted; on engine error a
single additional line including the error value is emitted (and none on
a non-error verdict). -/
theorem c6_stderr_output {ε Err B : Type}
    (enforce : List String → ε → Except Err Bool × ε)
    (srv : ServiceRequest → Except Err (DownResponse B))
    (est : ε) (req : ServiceRequest) (vals : CasbinVals)
    (hv : req.vals = some vals) (hs : vals.subject ≠ "") :
    stderrQueries (call enforce srv est req).trace =
      (match vals.domain with
       | some _ => [theQuery req vals]
       | none => []) ∧
    (∀ err, (enforce (theQuery req vals) est).1 = Except.error err →
        errLines (call enforce srv est req).trace = [(errLineNo vals, err)]) ∧
    (∀ b, (enforce (theQuery req vals) est).1 = Except.ok b →
        errLines (call enforce srv est req).trace = []) := by
  refine ⟨?_, fun err h => ?_, fun b h => ?_⟩
  · rcases he : enforce (theQuery req vals) est with ⟨r, est'⟩
    cases r with
    | ok b =>
        cases b
        · rw [call_deny enforce srv est est' req vals hv hs he]
          cases hd : vals.domain <;> simp [stderrQueries, preEvents, hd]
        · rw [call_allow enforce srv est est' req vals hv hs he]
          cases hd : vals.domain <;> simp [stderrQueries, preEvents, hd]
    | error err =>
        rw [call_err enforce srv est est' req vals err hv hs he]
        cases hd : vals.domain <;> simp [stderrQueries, preEvents, hd]
  · rw [call_err enforce srv est (enforce (theQuery req vals) est).2 req vals err hv hs
      (by rw [← h])]
    cases hd : vals.domain <;> simp [errLines, preEvents, hd]
  · cases b
    · rw [call_deny enforce srv est (enforce (theQuery req vals) est).2 req vals hv hs
        (by rw [← h])]
      cases hd : vals.domain <;> simp [errLines, preEvents, hd]
    · rw [call_allow enforce srv est (enforce (theQuery req vals) est).2 req vals hv hs
        (by rw [← h])]
      cases hd : vals.domain <;> simp [errLines, preEvents, hd]

/-- Witness for C6 amended: the 4-tuple query echo at a concrete request. -/
theorem c6_witness :
    stderrQueries (call enfBoom srvHello () reqBob).trace =
      [theQuery reqBob valsBob] :=
  (c6_stderr_output enfBoom srvHello () reqBob valsBob rfl (by decide)).1

/-- C7 counterexample: at a concrete request on which the enforcer errors,
the trace is acquire, enforce, error echo, release, synthesize — the
diagnostic line is emitted while the lock is still held, so the claimed
order (release, then emit, then synthesize) does not hold. -/
theorem c7_counterexample :
    kinds (call enfBoom srvHello () reqAlice).trace =
      [EvKind.acq, EvKind.enf, EvKind.errline, EvKind.rel, EvKind.synth 502] ∧
    ¬ posOf EvKind.rel (kinds (call enfBoom srvHello () reqAlice).trace) <
        posOf EvKind.errline (kinds (call enfBoom srvHello () reqAlice).trace) := by
  constructor <;> decide

/-- C7 amended: when the enforcer's enforce operation returns an error the
middleware's actions occur in the order: emit the diagnostic line
containing the error value to standard error, then release the writer
lock, then synthesize the 502 response. -/
theorem c7_error_ordering {ε Err B : Type}
    (enforce : List String → ε → Except Err Bool × ε)
    (srv : ServiceRequest → Except Err (DownResponse B))
    (est : ε) (req : ServiceRequest) (vals : CasbinVals) (err : Err)
    (hv : req.vals = some vals) (hs : vals.subject ≠ "")
    (he : (enforce (theQuery req vals) est).1 = Except.error err) :
    posOf EvKind.errline (kinds (call enforce srv est req).trace) <
      posOf EvKind.rel (kinds (call enforce srv est req).trace) ∧
    posOf EvKind.rel (kinds (call enforce srv est req).trace) <
      posOf (EvKind.synth 502) (kinds (call enforce srv est req).trace) ∧
    (kinds (call enforce srv est req).trace).count EvKind.errline = 1 ∧
    (kinds (call enforce srv est req).trace).count EvKind.rel = 1 ∧
    (kinds (call enforce srv est req).trace).count (EvKind.synth 502) = 1 ∧
    errLines (call enforce srv est req).trace = [(errLineNo vals, err)] := by
  rw [call_err enforce srv est (enforce (theQuery req vals) est).2 req vals err hv hs
    (by rw [← he])]
  cases hd : vals.domain <;>
    simp only [kinds, Event.kind, preEvents, errLines, errLineNo, hd, List.map_append,
      List.map_cons, List.map_nil, List.cons_append, List.nil_append] <;>
    refine ⟨by decide, by decide, by decide, by decide, by decide, by simp [errLines]⟩

/-- Witness for C7 amended at a concrete erroring enforcer. -/
theorem c7_witness :
    errLines (call enfBoom srvHello () reqAlice).trace = [(161, "boom")] :=
  (c7_error_ordering enfBoom srvHello () reqAlice valsAlice "boom" rfl (by decide)
    rfl).2.2.2.2.2

/-- C8: a downstream error is propagated unchanged (it is the only way
`call` returns through the error channel — every condition the middleware
classifies itself comes back as a successful synthesized response), and
conversely any error result of `call` originates from the downstream
service, which was invoked with the original request. -/
theorem c8_error_propagation {ε Err B : Type}
    (enforce : List String → ε → Except Err Bool × ε)
    (srv : ServiceRequest → Except Err (DownResponse B))
    (est : ε) (req : ServiceRequest) :
    (∀ vals err, req.vals = some vals → vals.subject ≠ "" →
        (enforce (theQuery req vals) est).1 = Except.ok true →
        srv req = Except.error err →
        (call enforce srv est req).result = Except.error err) ∧
    (∀ err, (call enforce srv est req).result = Except.error err →
        srv req = Except.error err ∧
        downstreamReqs (call enforce srv est req).trace = [req]) := by
  constructor
  · intro vals err hv hs h1 hsrv
    rw [call_allow enforce srv est (enforce (theQuery req vals) est).2 req vals hv hs
      (by rw [← h1]), hsrv]
    rfl
  · intro err hres
    rcases call_cases enforce srv est req with ⟨hc, _⟩ | ⟨vals, est', hv, hs, hbr⟩
    · rw [hc] at hres
      simp at hres
    · rcases hbr with ⟨he, hc⟩ | ⟨he, hc⟩ | ⟨e2, he, hc⟩
      · rw [hc] at hres ⊢
        cases hsrv : srv req with
        | ok r =>
            rw [hsrv] at hres
            simp [Except.map] at hres
        | error e3 =>
            rw [hsrv] at hres
            simp [Except.map] at hres
            subst hres
            refine ⟨rfl, ?_⟩
            cases hd : vals.domain <;> simp [downstreamReqs, preEvents, hd]
      · rw [hc] at hres
        simp at hres
      · rw [hc] at hres
        simp at hres

/-- Witness for C8: a failing downstream at a concrete allowed request. -/
theorem c8_witness :
    (call enfAllow srvFail () reqAlice).result = Except.error "downfail" :=
  (c8_error_propagation enfAllow srvFail () reqAlice).1 valsAlice "downfail" rfl
    (by decide) rfl rfl

/-- C9: the gate, every middleware it produces, every handle the getter
returns, and the transparent deref all hold the same enforcer address,
so a mutation of the heap through any one handle is observed through all
of them; a gate built from an existing handle shares it too. -/
theorem c9_shared_enforcer :
    ∀ (s : CasbinService),
      s.get_enforcer = s.enforcer ∧
      s.new_transform.enforcer = s.enforcer ∧
      s.derefHandle = s.enforcer ∧
      (∀ e : Nat, (CasbinService.set_enforcer e).get_enforcer = e) ∧
      ∀ (ε : Type) (heap : Nat → ε) (v : ε),
        Function.update heap s.get_enforcer v s.new_transform.enforcer = v ∧
        Function.update heap s.new_transform.enforcer v s.get_enforcer = v := by
  intro s
  refine ⟨rfl, rfl, rfl, fun e => rfl, fun ε heap v => ⟨?_, ?_⟩⟩ <;>
    simp [CasbinService.get_enforcer, CasbinService.new_transform]

/-- C10: a present-but-empty domain takes the 4-tuple branch: the empty
string is passed as the domain element of the query, and the request is
not rejected with the middleware's 401 (emptiness is only checked for the
subject). -/
theorem c10_empty_domain {ε Err B : Type}
    (enforce : List String → ε → Except Err Bool × ε)
    (srv : ServiceRequest → Except Err (DownResponse B))
    (est : ε) (s p m : String) (hs : s ≠ "") :
    queries (call enforce srv est ⟨p, m, some ⟨s, some ""⟩⟩).trace =
      [[s, "", p, m]] ∧
    (call enforce srv est ⟨p, m, some ⟨s, some ""⟩⟩).result ≠
      Except.ok ⟨401, EitherBody.right⟩ := by
  have hv : (⟨p, m, some ⟨s, some ""⟩⟩ : ServiceRequest).vals = some ⟨s, some ""⟩ := rfl
  constructor
  · have h := queries_call_consulted enforce srv est ⟨p, m, some ⟨s, some ""⟩⟩
      ⟨s, some ""⟩ hv hs
    simpa [theQuery] using h
  · rcases call_cases enforce srv est ⟨p, m, some ⟨s, some ""⟩⟩ with
      ⟨hc, hbad⟩ | ⟨vals, est', hv', hs', hbr⟩
    · rcases hbad with h | ⟨vals2, h2, h3⟩
      · simp at h
      · have h4 := Option.some.inj h2
        subst h4
        exact absurd h3 hs
    · rcases hbr with ⟨he, hc⟩ | ⟨he, hc⟩ | ⟨err, he, hc⟩ <;> rw [hc]
      · cases hsrv : srv ⟨p, m, some ⟨s, some ""⟩⟩ <;> simp [Except.map, hsrv]
      · simp
      · simp

/-- Witness for C10 at a concrete request with empty domain. -/
theorem c10_witness :
    queries (call enfDeny srvHello ()
        ⟨"/x", "GET", some ⟨"carol", some ""⟩⟩).trace =
      [["carol", "", "/x", "GET"]] ∧
    (call enfDeny srvHello () ⟨"/x", "GET", some ⟨"carol", some ""⟩⟩).result ≠
      Except.ok ⟨401, EitherBody.right⟩ :=
  c10_empty_domain enfDeny srvHello () "carol" "/x" "GET" (by decide)

end ActixCasbin
